import Mathlib

/-!
# Verification of the Hybrid Retriever (`src/rag/retriever.py`)

A shallow embedding of the `HybridRetriever` class and its helper methods.
Python `dict`s (which preserve insertion order, have unique keys, and update
existing keys in place) are modelled as association lists over `String` keys:
`dlookup` is `d[k]`/`k in d`, `dupd` is `d[k] = v`.  Python `float` arithmetic
is modelled by exact real arithmetic (`ℝ`); embedding coordinates and the
stored average document length are exact rationals.  `np.log` is `Real.log`,
`np.linalg.norm` is `Real.sqrt` of the sum of squares, `np.mean` is sum
divided by length.  `time.perf_counter` is not modelled: `latency_ms` is
fixed at `0`.  `self._documents[doc_id]` lookup in `_reciprocal_rank_fusion`
can fail (Python `KeyError`), so fusion and `retrieve` return an `Option`.
-/

namespace RagRetriever

/-- Python dict lookup `d.get(k)` / `d[k]`: first (unique) binding of `k`. -/
def dlookup {β : Type} (k : String) : List (String × β) → Option β
  | [] => none
  | (k', v) :: rest => if k' = k then some v else dlookup k rest

/-- Python dict assignment `d[k] = v`: replaces in place if the key exists,
otherwise appends the new binding at the end (dicts preserve insertion
order). -/
def dupd {β : Type} (k : String) (v : β) : List (String × β) → List (String × β)
  | [] => [(k, v)]
  | (k', v') :: rest => if k' = k then (k, v) :: rest else (k', v') :: dupd k v rest

/-- A regex `\w` word character, as matched by `re.findall(r'\b\w+\b', text)`
on the ASCII inputs this development uses. -/
def wordChar (c : Char) : Bool := c.isAlphanum || c == '_'

/-- Splits a character list into the maximal runs of word characters, i.e.
`re.findall(r'\b\w+\b', text)`.  The second argument accumulates the current
run in reverse. -/
def tokenRuns : List Char → List Char → List (List Char)
  | [], acc => if acc.isEmpty then [] else [acc.reverse]
  | c :: cs, acc =>
    if wordChar c then tokenRuns cs (c :: acc)
    else if acc.isEmpty then tokenRuns cs [] else acc.reverse :: tokenRuns cs []

/-- The stopword set of `HybridRetriever._tokenize`. -/
def stopwords : List String :=
  ["the", "a", "an", "is", "are", "was", "were", "be", "been",
   "being", "have", "has", "had", "do", "does", "did", "will",
   "would", "could", "should", "may", "might", "must", "shall",
   "can", "of", "to", "in", "for", "on", "with", "at", "by",
   "from", "as", "into", "through", "during", "before", "after",
   "above", "below", "between", "under", "again", "further",
   "then", "once", "here", "there", "when", "where", "why",
   "how", "all", "each", "few", "more", "most", "other", "some",
   "such", "no", "nor", "not", "only", "own", "same", "so",
   "than", "too", "very", "just", "and", "but", "if", "or",
   "because", "until", "while", "this", "that", "these", "those"]

/-- `HybridRetriever._tokenize`: lower-case, extract word tokens, drop
stopwords and tokens of length ≤ 2. -/
def tokenize (text : String) : List String :=
  let tokens := (tokenRuns (text.toList.map Char.toLower) []).map fun w => String.mk w
  tokens.filter fun t => !stopwords.contains t && decide (t.length > 2)

/-- The `RetrievedDocument` dataclass. -/
structure RetrievedDocument where
  id : String
  content : String
  score : ℝ
  metadata : List (String × String)
  source : String

/-- The `RetrievalResult` dataclass. -/
structure RetrievalResult where
  documents : List RetrievedDocument
  query : String
  retrieval_method : String
  latency_ms : ℝ
  total_candidates : ℕ

/-- One element of the `documents` argument of `add_documents`: a dict with
`'id'`, `'content'` and optional `'metadata'` keys. -/
structure DocRecord where
  id : String
  content : String
  metadata : List (String × String) := []

/-- The mutable state of a `HybridRetriever` instance: the constructor
parameters and the six index dicts initialised in `__init__`. -/
structure Retriever where
  dense_weight : ℝ := 0.7
  sparse_weight : ℝ := 0.3
  rrf_k : ℕ := 60
  top_k : ℕ := 10
  dense_index : List (String × List ℚ) := []
  documents : List (String × String) := []
  metadata : List (String × List (String × String)) := []
  idf : List (String × ℝ) := []
  doc_lengths : List (String × ℕ) := []
  avg_doc_length : ℚ := 0
  term_freqs : List (String × List (String × ℕ)) := []

/-- A freshly constructed `HybridRetriever()` with all-default parameters. -/
def initRetriever : Retriever := {}

/-- `sum(1 for tf in self._term_freqs.values() if term in tf)`. -/
def dfCount (tfs : List (String × List (String × ℕ))) (term : String) : ℕ :=
  tfs.countP fun p => (dlookup term p.2).isSome

/-- `np.mean` of a list of document lengths (only evaluated on nonempty
lists, guarded by `if self._doc_lengths:` in `add_documents`). -/
def natMean (l : List ℕ) : ℚ := (l.map fun n => (n : ℚ)).sum / l.length

/-- The `term_freq` dict built by `_index_for_bm25`:
`term_freq[term] = term_freq.get(term, 0) + 1` over the token list. -/
def termFreqMap (terms : List String) : List (String × ℕ) :=
  terms.foldl (fun m t => dupd t ((dlookup t m).getD 0 + 1) m) []

/-- The IDF value `_index_for_bm25` assigns to a term:
`np.log((n_docs - df + 0.5) / (df + 0.5) + 1)` with `df` counted over the
current `_term_freqs`. -/
noncomputable def idfValue (n_docs : ℕ) (tfs : List (String × List (String × ℕ)))
    (t : String) : ℝ :=
  Real.log (((n_docs : ℝ) - (dfCount tfs t : ℝ) + 0.5) / ((dfCount tfs t : ℝ) + 0.5) + 1)

/-- `HybridRetriever._index_for_bm25`: records the document's length and
term-frequency map, then updates the IDF entry of each distinct term of the
document from the current `len(self._documents)` and the current document
frequency.  Python iterates `set(terms)`; the model iterates the distinct
terms in a fixed deterministic order (`dedup`), which fixes the only thing
the set iteration leaves open — the insertion order of brand-new IDF
keys. -/
noncomputable def indexForBM25 (s : Retriever) (doc_id content : String) : Retriever :=
  let terms := tokenize content
  let s1 := { s with doc_lengths := dupd doc_id terms.length s.doc_lengths }
  let s2 := { s1 with term_freqs := dupd doc_id (termFreqMap terms) s1.term_freqs }
  let n_docs := s2.documents.length
  { s2 with
    idf := terms.dedup.foldl (fun m t => dupd t (idfValue n_docs s2.term_freqs t) m) s2.idf }

/-- One iteration of the `add_documents` loop: upsert the record into the
three dicts, then index it for BM25. -/
noncomputable def addRecord (st : Retriever) (doc : DocRecord) (emb : List ℚ) : Retriever :=
  indexForBM25
    { st with
      documents := dupd doc.id doc.content st.documents
      metadata := dupd doc.id doc.metadata st.metadata
      dense_index := dupd doc.id emb st.dense_index }
    doc.id doc.content

/-- The tail of `add_documents`: `if self._doc_lengths:` recompute
`_avg_doc_length` as the mean of the stored document lengths. -/
def recomputeAvg (s : Retriever) : Retriever :=
  if s.doc_lengths.isEmpty then s
  else { s with avg_doc_length := natMean (s.doc_lengths.map Prod.snd) }

/-- `HybridRetriever.add_documents`: zips the records with the embedding
rows (`zip` silently drops the surplus of the longer argument), upserts each
record into the three dicts, indexes it for BM25, and finally recomputes the
average document length. -/
noncomputable def addDocuments (s : Retriever) (documents : List DocRecord)
    (embeddings : List (List ℚ)) : Retriever :=
  recomputeAvg ((documents.zip embeddings).foldl (fun st de => addRecord st de.1 de.2) s)

/-- `np.dot` on two embedding rows (exact on the equal-length vectors the
code ever pairs). -/
def dot (a bv : List ℚ) : ℚ := ((a.zip bv).map fun p => p.1 * p.2).sum

/-- `np.linalg.norm`: the Euclidean norm. -/
noncomputable def vnorm (v : List ℚ) : ℝ := Real.sqrt ((v.map fun x => ((x : ℝ)) ^ 2).sum)

/-- The comparison used by `sorted(..., key=lambda x: x[1], reverse=True)`:
`x` may come before `y` iff `y`'s score is ≤ `x`'s. -/
def scoreGe (x y : String × ℝ) : Prop := y.2 ≤ x.2

noncomputable instance : DecidableRel scoreGe :=
  fun x y => inferInstanceAs (Decidable (y.2 ≤ x.2))

instance : IsTotal (String × ℝ) scoreGe := ⟨fun x y => le_total y.2 x.2⟩

instance : IsTrans (String × ℝ) scoreGe := ⟨fun _ _ _ h1 h2 => le_trans h2 h1⟩

/-- Python's `sorted(pairs, key=lambda x: x[1], reverse=True)`: a stable
descending sort on the score component.  `insertionSort` with `scoreGe`
puts an element before every later element with a score ≤ its own, which is
exactly the (unique) stable descending order. -/
noncomputable def sortDesc (l : List (String × ℝ)) : List (String × ℝ) :=
  l.insertionSort scoreGe

/-- The `scores` dict built by `HybridRetriever._dense_search`: one entry
per stored embedding whose norm and the query norm are both positive (the
ids of `_dense_index` are unique, so the dict is this list). -/
noncomputable def denseScores (s : Retriever) (query_embedding : List ℚ) :
    List (String × ℝ) :=
  s.dense_index.filterMap fun p =>
    if 0 < vnorm query_embedding ∧ 0 < vnorm p.2 then
      some (p.1, (dot query_embedding p.2 : ℝ) / (vnorm query_embedding * vnorm p.2))
    else none

/-- `HybridRetriever._dense_search`. -/
noncomputable def denseSearch (s : Retriever) (query_embedding : List ℚ) (top_k : ℕ) :
    List (String × ℝ) :=
  if s.dense_index.isEmpty then []
  else (sortDesc (denseScores s query_embedding)).take top_k

/-- One term's contribution in the BM25 formula of `_sparse_search`
(`k1 = 1.5`, `b = 0.75`): `idf * numerator / denominator` with
`numerator = tf * (k1 + 1)` and
`denominator = tf + k1 * (1 - b + b * doc_length / avg_doc_length)`. -/
noncomputable def bm25Term (idf tf : ℝ) (doc_length : ℕ) (avg : ℚ) : ℝ :=
  idf * (tf * (1.5 + 1)) /
    (tf + 1.5 * (1 - 0.75 + 0.75 * (doc_length : ℝ) / (avg : ℝ)))

/-- The per-document score accumulated by the inner loop of
`HybridRetriever._sparse_search`. -/
noncomputable def bm25Score (s : Retriever) (query_terms : List String) (doc_id : String) : ℝ :=
  let doc_length := (dlookup doc_id s.doc_lengths).getD 0
  query_terms.foldl (fun score term =>
    match dlookup term s.idf with
    | none => score
    | some idf =>
      let tf := (dlookup term ((dlookup doc_id s.term_freqs).getD [])).getD 0
      score + bm25Term idf (tf : ℝ) doc_length s.avg_doc_length) 0

/-- The `scores` dict built by `HybridRetriever._sparse_search`: every
stored document gets an entry, in insertion order. -/
noncomputable def sparseScores (s : Retriever) (query : String) : List (String × ℝ) :=
  let query_terms := tokenize query
  s.documents.map fun p => (p.1, bm25Score s query_terms p.1)

/-- `HybridRetriever._sparse_search`. -/
noncomputable def sparseSearch (s : Retriever) (query : String) (top_k : ℕ) :
    List (String × ℝ) :=
  (sortDesc (sparseScores s query)).take top_k

/-- The `rrf_scores` dict of `HybridRetriever._reciprocal_rank_fusion`:
each id at 0-based `rank` in a list adds `weight / (rrf_k + rank + 1)` to
its accumulator entry. -/
noncomputable def rrfScores (s : Retriever) (dense_results sparse_results : List (String × ℝ)) :
    List (String × ℝ) :=
  let m := dense_results.enum.foldl (fun m rp =>
    dupd rp.2.1 ((dlookup rp.2.1 m).getD 0 + s.dense_weight / ((s.rrf_k : ℝ) + (rp.1 : ℝ) + 1)) m) []
  sparse_results.enum.foldl (fun m rp =>
    dupd rp.2.1 ((dlookup rp.2.1 m).getD 0 + s.sparse_weight / ((s.rrf_k : ℝ) + (rp.1 : ℝ) + 1)) m) m

/-- The `sorted_results` of `_reciprocal_rank_fusion`: the accumulator
sorted descending by fused score and truncated to `top_k`. -/
noncomputable def rrfRanking (s : Retriever) (dense_results sparse_results : List (String × ℝ))
    (top_k : ℕ) : List (String × ℝ) :=
  (sortDesc (rrfScores s dense_results sparse_results)).take top_k

/-- The result-building loop of `_reciprocal_rank_fusion`: `none` as soon
as one element fails (a Python exception aborts the whole loop). -/
def mapOption {α β : Type} (f : α → Option β) : List α → Option (List β)
  | [] => some []
  | x :: xs => (f x).bind fun y => (mapOption f xs).map fun ys => y :: ys

/-- `HybridRetriever._reciprocal_rank_fusion`: builds the final
`RetrievedDocument` objects.  `self._documents[doc_id]` raises a `KeyError`
for an unknown id, hence the `Option`. -/
noncomputable def rrfFusion (s : Retriever) (dense_results sparse_results : List (String × ℝ))
    (top_k : ℕ) : Option (List RetrievedDocument) :=
  mapOption (fun p =>
    (dlookup p.1 s.documents).map fun content =>
      { id := p.1, content := content, score := p.2,
        metadata := (dlookup p.1 s.metadata).getD [], source := "fused" })
    (rrfRanking s dense_results sparse_results top_k)

/-- `top_k = top_k or self.top_k`: `None` and `0` are both falsy in Python,
so both are replaced by the constructor default. -/
def resolveTopK : Option ℕ → ℕ → ℕ
  | none, d => d
  | some v, d => if v = 0 then d else v

/-- `HybridRetriever.retrieve`.  The `use_reranker` flag is accepted and
ignored, exactly as in the source body. -/
noncomputable def retrieve (s : Retriever) (query : String) (query_embedding : List ℚ)
    (top_k : Option ℕ) (use_reranker : Bool := false) : Option RetrievalResult :=
  let k := resolveTopK top_k s.top_k
  let dense_results := denseSearch s query_embedding (k * 2)
  let sparse_results := sparseSearch s query (k * 2)
  (rrfFusion s dense_results sparse_results k).map fun docs =>
    { documents := docs, query := query, retrieval_method := "hybrid_rrf",
      latency_ms := 0, total_candidates := s.documents.length }

/-! ### Dict (association list) algebra -/

theorem dlookup_dupd_self {β : Type} (k : String) (v : β) (m : List (String × β)) :
    dlookup k (dupd k v m) = some v := by
  induction m with
  | nil => simp [dupd, dlookup]
  | cons a m ih =>
    by_cases h : a.1 = k <;> simp [dupd, dlookup, h, ih]

theorem dlookup_dupd_ne {β : Type} {k k' : String} (h : k ≠ k') (v : β)
    (m : List (String × β)) : dlookup k (dupd k' v m) = dlookup k m := by
  have h' : ¬ k' = k := fun hh => h hh.symm
  induction m with
  | nil => simp [dupd, dlookup, h']
  | cons a m ih =>
    by_cases ha : a.1 = k'
    · simp [dupd, dlookup, ha, h']
    · by_cases hb : a.1 = k <;> simp [dupd, dlookup, ha, hb, ih, h, h']

theorem dupd_dupd_self {β : Type} (k : String) (v : β) (m : List (String × β)) :
    dupd k v (dupd k v m) = dupd k v m := by
  induction m with
  | nil => simp [dupd]
  | cons a m ih =>
    by_cases h : a.1 = k <;> simp [dupd, h, ih]

theorem dupd_eq_self_of_dlookup {β : Type} {k : String} {v : β} {m : List (String × β)}
    (h : dlookup k m = some v) : dupd k v m = m := by
  induction m with
  | nil => simp [dlookup] at h
  | cons a m ih =>
    obtain ⟨a1, a2⟩ := a
    by_cases ha : a1 = k
    · simp [dlookup, ha] at h
      simp [dupd, ha, h]
    · simp [dlookup, ha] at h
      simp [dupd, ha, ih h]

theorem dupd_ne_nil {β : Type} (k : String) (v : β) (m : List (String × β)) :
    dupd k v m ≠ [] := by
  cases m with
  | nil => simp [dupd]
  | cons a m => by_cases h : a.1 = k <;> simp [dupd, h]

theorem isSome_dlookup_dupd {β : Type} {k : String} (k' : String) (v : β)
    {m : List (String × β)} (h : (dlookup k m).isSome) :
    (dlookup k (dupd k' v m)).isSome := by
  by_cases hk : k = k'
  · subst hk; simp [dlookup_dupd_self]
  · rwa [dlookup_dupd_ne hk]

theorem dlookup_dupd_eq_none {β : Type} {k k' : String} {v : β} {m : List (String × β)} :
    dlookup k (dupd k' v m) = none ↔ k ≠ k' ∧ dlookup k m = none := by
  constructor
  · intro h
    by_cases hk : k = k'
    · subst hk; simp [dlookup_dupd_self] at h
    · exact ⟨hk, by rwa [dlookup_dupd_ne hk v m] at h⟩
  · intro ⟨hk, h⟩
    rwa [dlookup_dupd_ne hk]

theorem length_dupd_of_isSome {β : Type} {k : String} (v : β) {m : List (String × β)}
    (h : (dlookup k m).isSome) : (dupd k v m).length = m.length := by
  induction m with
  | nil => simp [dlookup] at h
  | cons a m ih =>
    by_cases ha : a.1 = k
    · simp [dupd, ha]
    · simp [dlookup, ha] at h
      simp [dupd, ha, ih h]

theorem length_dupd_of_none {β : Type} {k : String} (v : β) {m : List (String × β)}
    (h : dlookup k m = none) : (dupd k v m).length = m.length + 1 := by
  induction m with
  | nil => simp [dupd]
  | cons a m ih =>
    by_cases ha : a.1 = k
    · simp [dlookup, ha] at h
    · simp [dlookup, ha] at h
      simp [dupd, ha, ih h]

theorem snd_eq_of_nodup_keys {β : Type} {m : List (String × β)}
    (hnd : (m.map Prod.fst).Nodup) {k : String} {v1 v2 : β}
    (h1 : (k, v1) ∈ m) (h2 : (k, v2) ∈ m) : v1 = v2 := by
  induction m with
  | nil => simp at h1
  | cons a m ih =>
    obtain ⟨a1, a2⟩ := a
    simp only [List.map_cons, List.nodup_cons] at hnd
    rcases List.mem_cons.1 h1 with h | h1'
    · rw [Prod.mk.injEq] at h
      obtain ⟨rfl, rfl⟩ := h
      rcases List.mem_cons.1 h2 with h | h2'
      · rw [Prod.mk.injEq] at h
        exact h.2.symm
      · exact absurd (List.mem_map.2 ⟨_, h2', rfl⟩) hnd.1
    · rcases List.mem_cons.1 h2 with h | h2'
      · rw [Prod.mk.injEq] at h
        obtain ⟨rfl, rfl⟩ := h
        exact absurd (List.mem_map.2 ⟨_, h1', rfl⟩) hnd.1
      · exact ih hnd.2 h1' h2'

/-! ### Folded updates (the IDF loop of `_index_for_bm25`) -/

theorem foldl_dupd_lookup_not_mem {β : Type} (f : String → β) :
    ∀ (ts : List String) (A : List (String × β)) (t : String), t ∉ ts →
      dlookup t (ts.foldl (fun m u => dupd u (f u) m) A) = dlookup t A := by
  intro ts
  induction ts with
  | nil => intro A t _; rfl
  | cons u ts ih =>
    intro A t ht
    simp only [List.mem_cons, not_or] at ht
    rw [List.foldl_cons, ih _ _ ht.2, dlookup_dupd_ne ht.1]

theorem foldl_dupd_lookup_mem {β : Type} (f : String → β) :
    ∀ (ts : List String) (A : List (String × β)) (t : String), t ∈ ts → ts.Nodup →
      dlookup t (ts.foldl (fun m u => dupd u (f u) m) A) = some (f t) := by
  intro ts
  induction ts with
  | nil => intro A t ht; simp at ht
  | cons u ts ih =>
    intro A t ht hnd
    rcases List.mem_cons.1 ht with rfl | ht'
    · rw [List.foldl_cons, foldl_dupd_lookup_not_mem f ts _ t (List.nodup_cons.1 hnd).1,
        dlookup_dupd_self]
    · exact List.foldl_cons _ _ ▸ ih _ _ ht' (List.nodup_cons.1 hnd).2

theorem foldl_dupd_eq_self {β : Type} (f : String → β) :
    ∀ (ts : List String) (A : List (String × β)),
      (∀ t ∈ ts, dlookup t A = some (f t)) →
      ts.foldl (fun m u => dupd u (f u) m) A = A := by
  intro ts
  induction ts with
  | nil => intro A _; rfl
  | cons u ts ih =>
    intro A h
    rw [List.foldl_cons, dupd_eq_self_of_dlookup (h u (List.mem_cons_self u ts))]
    exact ih A fun t ht => h t (List.mem_cons_of_mem u ht)

/-! ### The stable descending sort -/

theorem sortDesc_sorted (l : List (String × ℝ)) : (sortDesc l).Sorted scoreGe :=
  List.sorted_insertionSort scoreGe l

theorem sortDesc_perm (l : List (String × ℝ)) : List.Perm (sortDesc l) l :=
  List.perm_insertionSort scoreGe l

theorem filter_orderedInsert_sorted (c : ℝ) (x : String × ℝ) :
    ∀ (M : List (String × ℝ)), M.Sorted scoreGe →
      (M.orderedInsert scoreGe x).filter (fun p => decide (p.2 = c)) =
        if x.2 = c then x :: M.filter (fun p => decide (p.2 = c))
        else M.filter (fun p => decide (p.2 = c)) := by
  intro M
  induction M with
  | nil =>
    intro _
    by_cases hx : x.2 = c <;> simp [List.orderedInsert, List.filter, hx]
  | cons y M ih =>
    intro hs
    by_cases hxy : scoreGe x y
    · rw [List.orderedInsert_of_le _ _ hxy]
      by_cases hx : x.2 = c <;> simp [List.filter, hx]
    · have hyx : x.2 < y.2 := lt_of_not_le hxy
      simp only [List.orderedInsert, if_neg hxy]
      by_cases hy : y.2 = c
      · have hx : ¬ x.2 = c := by rw [← hy]; exact ne_of_lt hyx
        simp [List.filter, hy, hx, ih (List.Sorted.of_cons hs)]
      · by_cases hx : x.2 = c <;>
          simp [List.filter, hy, hx, ih (List.Sorted.of_cons hs)]

theorem sortDesc_filter_const (l : List (String × ℝ)) (c : ℝ) :
    (sortDesc l).filter (fun p => decide (p.2 = c)) =
      l.filter (fun p => decide (p.2 = c)) := by
  induction l with
  | nil => rfl
  | cons a l ih =>
    have hstep : sortDesc (a :: l) = (sortDesc l).orderedInsert scoreGe a := rfl
    rw [hstep, filter_orderedInsert_sorted c a _ (sortDesc_sorted l)]
    by_cases ha : a.2 = c <;> simp [List.filter, ha, ih]

theorem sortDesc_of_const {c : ℝ} : ∀ {l : List (String × ℝ)},
    (∀ p ∈ l, p.2 = c) → sortDesc l = l := by
  intro l
  induction l with
  | nil => intro _; rfl
  | cons a l ih =>
    intro h
    have hstep : sortDesc (a :: l) = (sortDesc l).orderedInsert scoreGe a := rfl
    rw [hstep, ih fun p hp => h p (List.mem_cons_of_mem a hp)]
    cases l with
    | nil => rfl
    | cons y l' =>
      have : scoreGe a y := by
        show y.2 ≤ a.2
        rw [h y (by simp), h a (by simp)]
      rw [List.orderedInsert_of_le _ _ this]

/-! ### Projections of one `add_documents` loop iteration -/

theorem addRecord_documents (st : Retriever) (d : DocRecord) (e : List ℚ) :
    (addRecord st d e).documents = dupd d.id d.content st.documents := by
  simp [addRecord, indexForBM25]

theorem addRecord_metadata (st : Retriever) (d : DocRecord) (e : List ℚ) :
    (addRecord st d e).metadata = dupd d.id d.metadata st.metadata := by
  simp [addRecord, indexForBM25]

theorem addRecord_dense_index (st : Retriever) (d : DocRecord) (e : List ℚ) :
    (addRecord st d e).dense_index = dupd d.id e st.dense_index := by
  simp [addRecord, indexForBM25]

theorem addRecord_doc_lengths (st : Retriever) (d : DocRecord) (e : List ℚ) :
    (addRecord st d e).doc_lengths =
      dupd d.id (tokenize d.content).length st.doc_lengths := by
  simp [addRecord, indexForBM25]

theorem addRecord_term_freqs (st : Retriever) (d : DocRecord) (e : List ℚ) :
    (addRecord st d e).term_freqs =
      dupd d.id (termFreqMap (tokenize d.content)) st.term_freqs := by
  simp [addRecord, indexForBM25]

theorem addRecord_avg (st : Retriever) (d : DocRecord) (e : List ℚ) :
    (addRecord st d e).avg_doc_length = st.avg_doc_length := by
  simp [addRecord, indexForBM25]

theorem addRecord_idf (st : Retriever) (d : DocRecord) (e : List ℚ) :
    (addRecord st d e).idf =
      (tokenize d.content).dedup.foldl
        (fun m t => dupd t
          (idfValue (dupd d.id d.content st.documents).length
            (dupd d.id (termFreqMap (tokenize d.content)) st.term_freqs) t) m)
        st.idf := by
  simp [addRecord, indexForBM25]

theorem recomputeAvg_documents (s : Retriever) :
    (recomputeAvg s).documents = s.documents := by
  unfold recomputeAvg; split <;> simp

theorem recomputeAvg_dense_index (s : Retriever) :
    (recomputeAvg s).dense_index = s.dense_index := by
  unfold recomputeAvg; split <;> simp

theorem recomputeAvg_term_freqs (s : Retriever) :
    (recomputeAvg s).term_freqs = s.term_freqs := by
  unfold recomputeAvg; split <;> simp

theorem recomputeAvg_doc_lengths (s : Retriever) :
    (recomputeAvg s).doc_lengths = s.doc_lengths := by
  unfold recomputeAvg; split <;> simp

theorem recomputeAvg_idf (s : Retriever) :
    (recomputeAvg s).idf = s.idf := by
  unfold recomputeAvg; split <;> simp

/-! ### The `add_documents` fold: key presence and key counts -/

/-- `addFold` abbreviates the loop of `add_documents` over the zipped
records. -/
noncomputable def addFold (L : List (DocRecord × List ℚ)) (st : Retriever) : Retriever :=
  L.foldl (fun st de => addRecord st de.1 de.2) st

theorem addDocuments_eq_addFold (s : Retriever) (docs : List DocRecord)
    (embs : List (List ℚ)) :
    addDocuments s docs embs = recomputeAvg (addFold (docs.zip embs) s) := rfl

/-- After processing a batch, every id that already had a binding in one of
the keyed stores still has one; `proj`/`upd` range over the three stores
touched per record. -/
theorem addFold_preserves_isSome {γ : Type} (proj : Retriever → List (String × γ))
    (hstep : ∀ st d e, ∃ v, proj (addRecord st d e) = dupd d.id v (proj st)) :
    ∀ (L : List (DocRecord × List ℚ)) (st : Retriever) (k : String),
      (dlookup k (proj st)).isSome → (dlookup k (proj (addFold L st))).isSome := by
  intro L
  induction L with
  | nil => intro st k h; exact h
  | cons de L ih =>
    intro st k h
    refine ih _ k ?_
    obtain ⟨v, hv⟩ := hstep st de.1 de.2
    rw [hv]
    exact isSome_dlookup_dupd _ _ h

theorem addFold_mem_isSome {γ : Type} (proj : Retriever → List (String × γ))
    (hstep : ∀ st d e, ∃ v, proj (addRecord st d e) = dupd d.id v (proj st)) :
    ∀ (L : List (DocRecord × List ℚ)) (st : Retriever) (de : DocRecord × List ℚ),
      de ∈ L → (dlookup de.1.id (proj (addFold L st))).isSome := by
  intro L
  induction L with
  | nil => intro st de h; simp at h
  | cons de0 L ih =>
    intro st de h
    rcases List.mem_cons.1 h with rfl | h'
    · refine addFold_preserves_isSome proj hstep L _ _ ?_
      obtain ⟨v, hv⟩ := hstep st de.1 de.2
      rw [hv, dlookup_dupd_self]
      rfl
    · exact ih _ de h'

theorem addFold_length {γ : Type} (proj : Retriever → List (String × γ))
    (hstep : ∀ st d e, ∃ v, proj (addRecord st d e) = dupd d.id v (proj st)) :
    ∀ (L : List (DocRecord × List ℚ)) (st : Retriever),
      (L.map fun de => de.1.id).Nodup →
      (∀ de ∈ L, dlookup de.1.id (proj st) = none) →
      (proj (addFold L st)).length = (proj st).length + L.length := by
  intro L
  induction L with
  | nil => intro st _ _; rfl
  | cons de L ih =>
    intro st hnd hf
    simp only [List.map_cons, List.nodup_cons] at hnd
    obtain ⟨v, hv⟩ := hstep st de.1 de.2
    have hlen : (proj (addRecord st de.1 de.2)).length = (proj st).length + 1 := by
      rw [hv, length_dupd_of_none _ (hf de (List.mem_cons_self de L))]
    have hfresh : ∀ de' ∈ L, dlookup de'.1.id (proj (addRecord st de.1 de.2)) = none := by
      intro de' h'
      rw [hv]
      refine dlookup_dupd_eq_none.2 ⟨?_, hf de' (List.mem_cons_of_mem de h')⟩
      intro hc
      exact hnd.1 (hc ▸ List.mem_map.2 ⟨de', h', rfl⟩)
    have hrec := ih (addRecord st de.1 de.2) hnd.2 hfresh
    have hcons : addFold (de :: L) st = addFold L (addRecord st de.1 de.2) := rfl
    rw [hcons, hrec, hlen, List.length_cons]
    omega

theorem map_fst_zip_sublist {α β : Type} :
    ∀ (l1 : List α) (l2 : List β), ((l1.zip l2).map Prod.fst).Sublist l1 := by
  intro l1
  induction l1 with
  | nil => intro l2; simp
  | cons a l1 ih =>
    intro l2
    cases l2 with
    | nil => simp
    | cons b l2 => simpa using List.Sublist.cons₂ a (ih l2)

/-! ### Zero-score sparse search -/

theorem bm25Score_of_no_idf (s : Retriever) (qts : List String)
    (hq : ∀ t ∈ qts, dlookup t s.idf = none) (doc_id : String) :
    bm25Score s qts doc_id = 0 := by
  unfold bm25Score
  have : ∀ (ts : List String), (∀ t ∈ ts, dlookup t s.idf = none) → ∀ (acc : ℝ),
      ts.foldl (fun score term =>
        match dlookup term s.idf with
        | none => score
        | some idf =>
          score + bm25Term idf
            ((dlookup term ((dlookup doc_id s.term_freqs).getD [])).getD 0 : ℝ)
            ((dlookup doc_id s.doc_lengths).getD 0) s.avg_doc_length) acc = acc := by
    intro ts
    induction ts with
    | nil => intro _ acc; rfl
    | cons t ts ih =>
      intro h acc
      rw [List.foldl_cons]
      have ht := h t (List.mem_cons_self t ts)
      rw [ht]
      exact ih (fun u hu => h u (List.mem_cons_of_mem t hu)) acc
  exact this qts hq 0

theorem sparseScores_of_no_idf (s : Retriever) (query : String)
    (hq : ∀ t ∈ tokenize query, dlookup t s.idf = none) :
    sparseScores s query = s.documents.map fun p => (p.1, (0 : ℝ)) := by
  unfold sparseScores
  exact List.map_congr_left fun p _ => by
    rw [bm25Score_of_no_idf s (tokenize query) hq p.1]

/-! ### `mapOption` -/

theorem mapOption_length {α β : Type} (f : α → Option β) :
    ∀ (l : List α) (ys : List β), mapOption f l = some ys → ys.length = l.length := by
  intro l
  induction l with
  | nil =>
    intro ys h
    simp [mapOption] at h
    simp [← h]
  | cons x xs ih =>
    intro ys h
    simp only [mapOption, Option.bind_eq_bind] at h
    cases hfx : f x with
    | none => rw [hfx] at h; simp at h
    | some y =>
      rw [hfx] at h
      cases hrest : mapOption f xs with
      | none => rw [hrest] at h; simp at h
      | some ys' =>
        rw [hrest] at h
        simp only [Option.some_bind, Option.map_some] at h
        obtain rfl := Option.some.inj h
        simp [ih ys' hrest]

/-! ### Re-adding one identical record -/

attribute [ext] Retriever

theorem addRecord_addRecord (s : Retriever) (d : DocRecord) (e : List ℚ) :
    addRecord (addRecord s d e) d e = addRecord s d e := by
  ext : 1
  · simp [addRecord, indexForBM25]
  · simp [addRecord, indexForBM25]
  · simp [addRecord, indexForBM25]
  · simp [addRecord, indexForBM25]
  · rw [addRecord_dense_index, addRecord_dense_index, dupd_dupd_self]
  · rw [addRecord_documents, addRecord_documents, dupd_dupd_self]
  · rw [addRecord_metadata, addRecord_metadata, dupd_dupd_self]
  · rw [addRecord_idf (addRecord s d e) d e, addRecord_documents, addRecord_term_freqs,
      dupd_dupd_self, dupd_dupd_self]
    refine foldl_dupd_eq_self _ _ _ fun t ht => ?_
    rw [addRecord_idf s d e]
    exact foldl_dupd_lookup_mem _ _ _ t ht (List.nodup_dedup _)
  · rw [addRecord_doc_lengths, addRecord_doc_lengths, dupd_dupd_self]
  · rw [addRecord_avg, addRecord_avg]
  · rw [addRecord_term_freqs, addRecord_term_freqs, dupd_dupd_self]

theorem addRecord_recomputeAvg (X : Retriever) (d : DocRecord) (e : List ℚ) :
    addRecord (recomputeAvg X) d e =
      { addRecord X d e with avg_doc_length := (recomputeAvg X).avg_doc_length } := by
  ext : 1
  · simp [addRecord, indexForBM25, recomputeAvg]; split <;> simp
  · simp [addRecord, indexForBM25, recomputeAvg]; split <;> simp
  · simp [addRecord, indexForBM25, recomputeAvg]; split <;> simp
  · simp [addRecord, indexForBM25, recomputeAvg]; split <;> simp
  · rw [addRecord_dense_index, recomputeAvg_dense_index]
    simp [addRecord_dense_index]
  · rw [addRecord_documents, recomputeAvg_documents]
    simp [addRecord_documents]
  · rw [addRecord_metadata]
    simp [addRecord_metadata, recomputeAvg]
    split <;> simp
  · rw [addRecord_idf, recomputeAvg_documents, recomputeAvg_term_freqs, recomputeAvg_idf]
    simp [addRecord_idf]
  · rw [addRecord_doc_lengths, recomputeAvg_doc_lengths]
    simp [addRecord_doc_lengths]
  · rw [addRecord_avg]
  · rw [addRecord_term_freqs, recomputeAvg_term_freqs]
    simp [addRecord_term_freqs]

theorem recomputeAvg_set_avg (X : Retriever) (A : ℚ) (h : ¬ X.doc_lengths.isEmpty) :
    recomputeAvg { X with avg_doc_length := A } = recomputeAvg X := by
  simp [recomputeAvg, h]

/-! ### Concrete states used by the claims -/

/-- The three-document corpus of the spec's IDF scenario. -/
def c1Docs : List DocRecord :=
  [⟨"d1", "heart disease risk", []⟩, ⟨"d2", "diabetes and heart care", []⟩,
   ⟨"d3", "unrelated topic", []⟩]

/-- The retriever after `add_documents` on the IDF scenario corpus. -/
noncomputable def c1State : Retriever := addDocuments initRetriever c1Docs [[1], [1], [1]]

/-- A retriever holding documents `a`, `b`, `c` with default parameters
(`dense_weight = 0.7`, `sparse_weight = 0.3`, `rrf_k = 60`), as the RRF
scenario requires. -/
def c2State : Retriever :=
  { documents := [("a", "alpha"), ("b", "beta"), ("c", "gamma")] }

/-- A retriever with equal fusion weights, used to produce an exact tie. -/
def c3State : Retriever := { dense_weight := 0.5, sparse_weight := 0.5 }

/-- One document whose embedding has dimension 2. -/
noncomputable def c4Base : Retriever :=
  addDocuments initRetriever [⟨"a", "alpha words", []⟩] [[1, 2]]

/-- The same store after adding a second record whose embedding has
dimension 1 — the wrong dimension. -/
noncomputable def c4After : Retriever := addDocuments c4Base [⟨"b", "beta words", []⟩] [[1]]

/-- A store holding one document whose embedding is the zero vector. -/
noncomputable def c5State : Retriever :=
  addDocuments initRetriever [⟨"z", "zero vec doc", []⟩] [[0, 0]]

/-- Two documents inserted in the order `bbb`, `aaa` (descending id). -/
noncomputable def c6State : Retriever :=
  addDocuments initRetriever
    [⟨"bbb", "orange fruit", []⟩, ⟨"aaa", "purple fruit", []⟩] [[1], [1]]

/-- Corpus for the BM25 monotonicity counterexample: a filler document `e`
(8 tokens `foo`) and the document `d` = `"foo bar"` under test. -/
noncomputable def c7Before : Retriever :=
  addDocuments initRetriever
    [⟨"e", "foo foo foo foo foo foo foo foo", []⟩, ⟨"d", "foo bar", []⟩] [[1], [1]]

/-- The same corpus with the frequency of the query term `foo` in `d`
raised from 1 to 20; all other documents unchanged. -/
noncomputable def c7After : Retriever :=
  addDocuments initRetriever
    [⟨"e", "foo foo foo foo foo foo foo foo", []⟩,
     ⟨"d", "foo foo foo foo foo foo foo foo foo foo foo foo foo foo foo foo foo foo foo foo bar",
      []⟩]
    [[1], [1]]

/-- The IDF entry for `heart` that `add_documents` actually leaves behind:
it was last written while indexing `d2`, when the store held `N = 2`
documents and `df("heart") = 2`; indexing `d3` does not touch it. -/
theorem c1_idf_heart :
    dlookup "heart" c1State.idf = some (Real.log ((2 - 2 + 0.5) / (2 + 0.5) + 1)) := by
  have t1 : tokenize "heart disease risk" = ["heart", "disease", "risk"] := by decide
  have t2 : tokenize "diabetes and heart care" = ["diabetes", "heart", "care"] := by decide
  have t3 : tokenize "unrelated topic" = ["unrelated", "topic"] := by decide
  have d1 : (["heart", "disease", "risk"] : List String).dedup
      = ["heart", "disease", "risk"] := by decide
  have d2 : (["diabetes", "heart", "care"] : List String).dedup
      = ["diabetes", "heart", "care"] := by decide
  have d3 : (["unrelated", "topic"] : List String).dedup = ["unrelated", "topic"] := by decide
  simp [c1State, c1Docs, addDocuments, addRecord, recomputeAvg, indexForBM25, idfValue,
    termFreqMap, initRetriever, t1, t2, t3, d1, d2, d3, dupd, dlookup, dfCount, natMean]

/-- **C1, counterexample.**  After adding the batch `["heart disease risk",
"diabetes and heart care", "unrelated topic"]`, the stored IDF of `heart`
is *not* `ln((3 - 2 + 0.5) / (2 + 0.5) + 1)`, the value the claim derives
from the current corpus size `N = 3`: the third document never triggers a
recomputation of `heart`'s IDF, which is stale at the `N = 2` value. -/
theorem idf_not_current_corpus_counterexample :
    dlookup "heart" c1State.idf ≠
      some (Real.log ((3 - 2 + 0.5) / (2 + 0.5) + 1)) := by
  rw [c1_idf_heart]
  intro hc
  have h2 : Real.log ((2 - 2 + 0.5) / (2 + 0.5) + 1)
      = Real.log ((3 - 2 + 0.5) / (2 + 0.5) + 1) := Option.some.inj hc
  have h3 := congrArg Real.exp h2
  rw [Real.exp_log (by norm_num), Real.exp_log (by norm_num)] at h3
  norm_num at h3

/-- **C1, amended.**  The stored IDF of a term `t` equals
`ln((N - df(t) + 0.5) / (df(t) + 0.5) + 1)` where `N` and `df(t)` are the
document count and document frequency *at the time the last document
containing `t` was indexed*, not of the final corpus.  For the scenario
batch, `heart` was last (re)indexed while adding the second document, when
`N = 2` and `df("heart") = 2`, so
`idf("heart") = ln((2 - 2 + 0.5) / (2 + 0.5) + 1)`. -/
theorem idf_last_index_time_formula :
    dlookup "heart" c1State.idf
      = some (Real.log ((2 - 2 + 0.5) / (2 + 0.5) + 1)) := c1_idf_heart

/-- **C2.**  `_reciprocal_rank_fusion` on dense list
`[("a", .9), ("b", .8)]` and sparse list `[("b", 5), ("c", 3)]` with
weights `(0.7, 0.3)` and `rrf_k = 60`: the fused scores are exactly
`rrf("b") = 0.7/62 + 0.3/61`, `rrf("a") = 0.7/61`, `rrf("c") = 0.3/62`,
the fused order is `b, a, c`, and the output is truncated to `top_k`
(with `top_k = 2` only `b, a` survive). -/
theorem rrf_exactness :
    rrfFusion c2State [("a", 0.9), ("b", 0.8)] [("b", 5), ("c", 3)] 10 =
      some [⟨"b", "beta", (0.7:ℝ)/62 + 0.3/61, [], "fused"⟩,
            ⟨"a", "alpha", 0.7/61, [], "fused"⟩,
            ⟨"c", "gamma", 0.3/62, [], "fused"⟩] ∧
    rrfRanking c2State [("a", 0.9), ("b", 0.8)] [("b", 5), ("c", 3)] 2 =
      [("b", (0.7:ℝ)/62 + 0.3/61), ("a", 0.7/61)] := by
  constructor
  · have hrank : rrfRanking c2State [("a", 0.9), ("b", 0.8)] [("b", 5), ("c", 3)] 10 =
        [("b", (0.7:ℝ)/62 + 0.3/61), ("a", 0.7/61), ("c", 0.3/62)] := by
      simp [rrfRanking, rrfScores, c2State, sortDesc, scoreGe, dupd, dlookup,
        List.enum, List.enumFrom]
      norm_num [scoreGe]
    simp only [rrfFusion, hrank]
    simp [mapOption, dlookup, c2State]
  · simp [rrfRanking, rrfScores, c2State, sortDesc, scoreGe, dupd, dlookup,
      List.enum, List.enumFrom]
    norm_num [scoreGe]

/-- **C3, counterexample.**  With equal weights `(0.5, 0.5)`, fusing dense
list `[("b", 1)]` with sparse list `[("a", 1)]` gives `b` and `a` exactly
equal fused scores `0.5/61`, yet the fused order is `b, a` — the dict
insertion order (dense list first) — not the ascending-id order `a, b`
the claim requires. -/
theorem tie_break_not_ascending_id_counterexample :
    rrfScores c3State [("b", 1)] [("a", 1)] = [("b", (0.5:ℝ)/61), ("a", 0.5/61)] ∧
    (rrfRanking c3State [("b", 1)] [("a", 1)] 10).map Prod.fst = ["b", "a"] ∧
    "a" < "b" := by
  refine ⟨?_, ?_, by rw [String.lt_iff_toList_lt]; decide⟩
  · simp [rrfScores, c3State, dupd, dlookup, List.enum, List.enumFrom]
    norm_num
  · simp [rrfRanking, rrfScores, c3State, sortDesc, scoreGe, dupd, dlookup,
      List.enum, List.enumFrom]

/-- **C3, amended.**  In every ranking the engine produces — dense search,
sparse search and RRF fusion — candidates with exactly equal scores keep
the order in which they entered the score accumulator (Python's `sorted` is
stable), i.e. dict insertion order, not ascending document id: the sort
used by all three rankings leaves the sublist of entries at any fixed score
unchanged, and each ranking is that sort followed by truncation. -/
theorem tie_break_stable_insertion_order :
    (∀ (l : List (String × ℝ)) (c : ℝ),
        (sortDesc l).filter (fun p => decide (p.2 = c)) =
          l.filter (fun p => decide (p.2 = c))) ∧
    (∀ (s : Retriever) (dense sparse : List (String × ℝ)) (k : ℕ),
        rrfRanking s dense sparse k = (sortDesc (rrfScores s dense sparse)).take k) ∧
    (∀ (s : Retriever) (q : String) (k : ℕ),
        sparseSearch s q k = (sortDesc (sparseScores s q)).take k) ∧
    (∀ (s : Retriever) (e : List ℚ) (k : ℕ),
        denseSearch s e k =
          if s.dense_index.isEmpty then [] else (sortDesc (denseScores s e)).take k) :=
  ⟨sortDesc_filter_const, fun _ _ _ _ => rfl, fun _ _ _ => rfl, fun _ _ _ => rfl⟩

/-- **C4, counterexample.**  `add_documents` performs no validation at all:
after a store whose only embedding has dimension 2 receives a record with a
dimension-1 embedding, the new record is stored and indexed (and no error
was raised — the operation is total), contradicting the claim that the
batch is rejected with the stores left unchanged. -/
theorem bad_dimension_batch_mutates_counterexample :
    dlookup "a" c4Base.dense_index = some [1, 2] ∧
    dlookup "b" c4Base.documents = none ∧
    dlookup "b" c4After.documents = some "beta words" ∧
    dlookup "b" c4After.dense_index = some [1] := by
  have t1 : tokenize "alpha words" = ["alpha", "words"] := by decide
  have t2 : tokenize "beta words" = ["beta", "words"] := by decide
  refine ⟨?_, ?_, ?_, ?_⟩ <;>
    simp [c4After, c4Base, addDocuments, addRecord, recomputeAvg, indexForBM25, idfValue,
      termFreqMap, initRetriever, t1, t2, dupd, dlookup, dfCount, natMean]

/-- **C4, amended.**  `add_documents` validates nothing: every `(document,
embedding)` pair that survives the `zip` is unconditionally applied —
whatever its embedding dimension — and ends up present in the document
store and the dense index; no error is ever raised (the operation is
total). -/
theorem add_documents_no_validation (s : Retriever) (docs : List DocRecord)
    (embs : List (List ℚ)) (d : DocRecord) (e : List ℚ)
    (hmem : (d, e) ∈ docs.zip embs) :
    (dlookup d.id (addDocuments s docs embs).documents).isSome ∧
    (dlookup d.id (addDocuments s docs embs).dense_index).isSome := by
  rw [addDocuments_eq_addFold]
  constructor
  · rw [recomputeAvg_documents]
    exact addFold_mem_isSome (fun st => st.documents)
      (fun st d e => ⟨d.content, addRecord_documents st d e⟩) _ s (d, e) hmem
  · rw [recomputeAvg_dense_index]
    exact addFold_mem_isSome (fun st => st.dense_index)
      (fun st d e => ⟨e, addRecord_dense_index st d e⟩) _ s (d, e) hmem

/-- Witness for `add_documents_no_validation` at a concrete input. -/
theorem add_documents_no_validation_witness :
    (dlookup "x" (addDocuments initRetriever [⟨"x", "hello world", []⟩] [[1]]).documents).isSome ∧
    (dlookup "x" (addDocuments initRetriever [⟨"x", "hello world", []⟩] [[1]]).dense_index).isSome :=
  add_documents_no_validation initRetriever [⟨"x", "hello world", []⟩] [[1]]
    ⟨"x", "hello world", []⟩ [1] (by simp)

/-- **C5, counterexample.**  A stored document whose embedding has zero
norm does *not* participate in the dense ranking with similarity `0`: the
`if query_norm > 0 and doc_norm > 0` guard skips the `scores[doc_id]`
assignment entirely, so `_dense_search` returns an empty ranking even
though the document is stored. -/
theorem zero_norm_doc_dropped_counterexample :
    dlookup "z" c5State.documents = some "zero vec doc" ∧
    denseSearch c5State [1] 10 = [] := by
  have t1 : tokenize "zero vec doc" = ["zero", "vec", "doc"] := by decide
  constructor
  · simp [c5State, addDocuments, addRecord, recomputeAvg, indexForBM25, idfValue,
      termFreqMap, initRetriever, t1, dupd, dlookup, dfCount, natMean]
  · simp [denseSearch, denseScores, c5State, addDocuments, addRecord, recomputeAvg,
      indexForBM25, idfValue, termFreqMap, initRetriever, t1, dupd, dlookup, dfCount,
      natMean, vnorm, sortDesc]

/-- **C5, amended.**  In `_dense_search` a zero norm never produces a NaN
or an error, but the affected similarities are not defined as `0` either:
if the query norm is zero the ranking is empty, and a stored document whose
embedding has zero norm is omitted from the ranking altogether (it does not
appear with score `0`). -/
theorem dense_search_zero_norm_skipped :
    (∀ (s : Retriever) (q : List ℚ) (k : ℕ), vnorm q = 0 → denseSearch s q k = []) ∧
    (∀ (s : Retriever) (q : List ℚ) (k : ℕ) (id : String) (e : List ℚ),
        (s.dense_index.map Prod.fst).Nodup → (id, e) ∈ s.dense_index → vnorm e = 0 →
        id ∉ (denseSearch s q k).map Prod.fst) := by
  constructor
  · intro s q k hq
    unfold denseSearch
    split
    · rfl
    · have hnil : denseScores s q = [] := by
        unfold denseScores
        refine List.filterMap_eq_nil_iff.2 fun p _ => ?_
        rw [if_neg]
        rintro ⟨h1, _⟩
        rw [hq] at h1
        exact lt_irrefl 0 h1
      rw [hnil]
      simp [sortDesc]
  · intro s q k id e hnd hmem hz hin
    unfold denseSearch at hin
    split at hin
    · simp at hin
    · obtain ⟨p, hp, hpid⟩ := List.mem_map.1 hin
      have hp1 : p ∈ sortDesc (denseScores s q) := List.mem_of_mem_take hp
      have hp2 : p ∈ denseScores s q := (sortDesc_perm _).mem_iff.1 hp1
      obtain ⟨a, ha, hfa⟩ := List.mem_filterMap.1 hp2
      split at hfa
      · rename_i hcond
        obtain rfl := Option.some.inj hfa
        obtain ⟨a1, a2⟩ := a
        simp only at hpid hcond
        subst hpid
        have he : a2 = e := snd_eq_of_nodup_keys hnd ha hmem
        rw [he, hz] at hcond
        exact absurd hcond.2 (lt_irrefl 0)
      · simp at hfa

/-- Witness for `dense_search_zero_norm_skipped` at concrete inputs. -/
theorem dense_search_zero_norm_skipped_witness :
    denseSearch initRetriever [0] 5 = [] ∧
    "z" ∉ (denseSearch { dense_index := [("z", [0, 0])] } [1] 10).map Prod.fst :=
  ⟨dense_search_zero_norm_skipped.1 initRetriever [0] 5 (by simp [vnorm]),
   dense_search_zero_norm_skipped.2 { dense_index := [("z", [0, 0])] } [1] 10 "z" [0, 0]
     (by simp) (by simp) (by simp [vnorm])⟩

/-- **C6, counterexample.**  On a corpus whose documents were inserted in
the order `bbb`, `aaa`, a query with no surviving terms (`"the"` is a
stopword) gives every document score `0` and `_sparse_search` returns the
ids in insertion order `bbb, aaa` — not in the ascending-id order
`aaa, bbb` the claim requires. -/
theorem empty_query_order_counterexample :
    sparseSearch c6State "the" 5 = [("bbb", 0), ("aaa", 0)] ∧ "aaa" < "bbb" := by
  have tq : tokenize "the" = [] := by decide
  have t1 : tokenize "orange fruit" = ["orange", "fruit"] := by decide
  have t2 : tokenize "purple fruit" = ["purple", "fruit"] := by decide
  constructor
  · simp [sparseSearch, sparseScores, bm25Score, c6State, addDocuments, addRecord,
      recomputeAvg, indexForBM25, idfValue, termFreqMap, initRetriever, tq, t1, t2,
      dupd, dlookup, dfCount, natMean, sortDesc, scoreGe]
  · rw [String.lt_iff_toList_lt]; decide

/-- **C6, amended.**  When the corpus is empty, `retrieve` returns an empty
document list and `total_candidates = 0` rather than an error; when the
query has no terms surviving tokenization (more precisely, none of its
terms has an IDF entry), `_sparse_search` gives every document score `0`
and still returns up to `k` ids — in document insertion order, not
ascending-id order. -/
theorem empty_corpus_and_empty_query_behavior :
    (∀ (q : String) (e : List ℚ) (t : Option ℕ),
        retrieve initRetriever q e t = some ⟨[], q, "hybrid_rrf", 0, 0⟩) ∧
    (∀ (s : Retriever) (query : String) (k : ℕ),
        (∀ t ∈ tokenize query, dlookup t s.idf = none) →
        sparseScores s query = (s.documents.map fun p => (p.1, (0 : ℝ))) ∧
        sparseSearch s query k = (s.documents.map fun p => (p.1, (0 : ℝ))).take k) := by
  constructor
  · intro q e t
    simp [retrieve, denseSearch, sparseSearch, sparseScores, sortDesc, rrfFusion,
      rrfRanking, rrfScores, mapOption, initRetriever, resolveTopK]
  · intro s query k hq
    have hz := sparseScores_of_no_idf s query hq
    refine ⟨hz, ?_⟩
    unfold sparseSearch
    rw [hz, sortDesc_of_const]
    intro p hp
    obtain ⟨a, _, rfl⟩ := List.mem_map.1 hp
    rfl

/-- Witness for `empty_corpus_and_empty_query_behavior` at concrete
inputs (a store whose IDF table is empty, so no query term has an
entry). -/
theorem empty_corpus_and_empty_query_behavior_witness :
    retrieve initRetriever "heart" [1] none = some ⟨[], "heart", "hybrid_rrf", 0, 0⟩ ∧
    sparseSearch { documents := [("b", "x"), ("a", "y")] } "heart" 5 =
      [("b", 0), ("a", 0)] := by
  refine ⟨empty_corpus_and_empty_query_behavior.1 "heart" [1] none, ?_⟩
  have h := (empty_corpus_and_empty_query_behavior.2
    { documents := [("b", "x"), ("a", "y")] } "heart" 5 fun t _ => rfl).2
  simpa using h

/-- The BM25 score `_sparse_search` computes for `d` in the `c7Before`
corpus: `idf` values `ln(6/5)` for `foo` and `ln 2` for `bar`, document
length 2, average length 5. -/
theorem c7_before_score : bm25Score c7Before (tokenize "foo bar") "d" =
    Real.log ((6:ℝ)/5) * (100/73) + Real.log 2 * (100/73) := by
  have t1 : tokenize "foo foo foo foo foo foo foo foo"
      = ["foo", "foo", "foo", "foo", "foo", "foo", "foo", "foo"] := by decide
  have t2 : tokenize "foo bar" = ["foo", "bar"] := by decide
  have d1 : (["foo", "foo", "foo", "foo", "foo", "foo", "foo", "foo"] : List String).dedup
      = ["foo"] := by decide
  have d2 : (["foo", "bar"] : List String).dedup = ["foo", "bar"] := by decide
  simp [bm25Score, bm25Term, c7Before, addDocuments, addRecord, recomputeAvg, addFold,
    indexForBM25, idfValue, termFreqMap, initRetriever, t1, t2, d1, d2,
    dupd, dlookup, dfCount, natMean]
  norm_num
  ring_nf

/-- The BM25 score `_sparse_search` computes for `d` in the `c7After`
corpus: same IDF values, document length 21, average length 29/2. -/
theorem c7_after_score : bm25Score c7After (tokenize "foo bar") "d" =
    Real.log ((6:ℝ)/5) * (2320/1021) + Real.log 2 * (580/697) := by
  have t1 : tokenize "foo foo foo foo foo foo foo foo"
      = ["foo", "foo", "foo", "foo", "foo", "foo", "foo", "foo"] := by decide
  have t2 : tokenize "foo foo foo foo foo foo foo foo foo foo foo foo foo foo foo foo foo foo foo foo bar"
      = (List.replicate 20 "foo") ++ ["bar"] := by decide
  have t3 : tokenize "foo bar" = ["foo", "bar"] := by decide
  have d1 : (["foo", "foo", "foo", "foo", "foo", "foo", "foo", "foo"] : List String).dedup
      = ["foo"] := by decide
  have d2 : ((List.replicate 20 "foo") ++ ["bar"] : List String).dedup = ["foo", "bar"] := by
    decide
  simp [bm25Score, bm25Term, c7After, addDocuments, addRecord, recomputeAvg, addFold,
    indexForBM25, idfValue, termFreqMap, initRetriever, t1, t2, t3, d1, d2,
    dupd, dlookup, dfCount, natMean, List.replicate]
  norm_num
  ring_nf

/-- **C7, counterexample.**  Raising the frequency of the query term `foo`
in document `d` from 1 to 20 — holding the other document fixed — strictly
*decreases* `d`'s BM25 score as computed by `_sparse_search`: the longer
document inflates `len(d)/avg_len`, which shrinks the `bar` term's
contribution faster than the saturating `foo` term gains. -/
theorem bm25_not_monotone_counterexample :
    dlookup "foo" ((dlookup "d" c7Before.term_freqs).getD []) = some 1 ∧
    dlookup "foo" ((dlookup "d" c7After.term_freqs).getD []) = some 20 ∧
    dlookup "bar" ((dlookup "d" c7Before.term_freqs).getD []) = some 1 ∧
    dlookup "bar" ((dlookup "d" c7After.term_freqs).getD []) = some 1 ∧
    dlookup "e" c7Before.term_freqs = dlookup "e" c7After.term_freqs ∧
    bm25Score c7After (tokenize "foo bar") "d" <
      bm25Score c7Before (tokenize "foo bar") "d" := by
  have t1 : tokenize "foo foo foo foo foo foo foo foo"
      = ["foo", "foo", "foo", "foo", "foo", "foo", "foo", "foo"] := by decide
  have t2 : tokenize "foo foo foo foo foo foo foo foo foo foo foo foo foo foo foo foo foo foo foo foo bar"
      = (List.replicate 20 "foo") ++ ["bar"] := by decide
  have t3 : tokenize "foo bar" = ["foo", "bar"] := by decide
  refine ⟨?_, ?_, ?_, ?_, ?_, ?_⟩
  · simp [c7Before, addDocuments, addRecord, recomputeAvg, indexForBM25, idfValue,
      termFreqMap, initRetriever, t1, t3, dupd, dlookup, dfCount, natMean]
  · simp [c7After, addDocuments, addRecord, recomputeAvg, indexForBM25, idfValue,
      termFreqMap, initRetriever, t1, t2, dupd, dlookup, dfCount, natMean, List.replicate]
  · simp [c7Before, addDocuments, addRecord, recomputeAvg, indexForBM25, idfValue,
      termFreqMap, initRetriever, t1, t3, dupd, dlookup, dfCount, natMean]
  · simp [c7After, addDocuments, addRecord, recomputeAvg, indexForBM25, idfValue,
      termFreqMap, initRetriever, t1, t2, dupd, dlookup, dfCount, natMean, List.replicate]
  · simp [c7Before, c7After, addDocuments, addRecord, recomputeAvg, indexForBM25, idfValue,
      termFreqMap, initRetriever, t1, t2, t3, dupd, dlookup, dfCount, natMean, List.replicate]
  · rw [c7_before_score, c7_after_score]
    have h1 : Real.log ((6:ℝ)/5) ≤ 1/5 := by
      have h := Real.log_le_sub_one_of_pos (x := (6:ℝ)/5) (by norm_num)
      linarith
    have h2 : (0.6931471803:ℝ) < Real.log 2 := Real.log_two_gt_d9
    have h0 : 0 ≤ Real.log ((6:ℝ)/5) := Real.log_nonneg (by norm_num)
    linarith [h1, h2, h0]

/-- **C7, amended.**  Increasing the frequency of a query term never
decreases that term's contribution to the BM25 score *when the
length-normalization input `len(d)/avg_len` is held fixed*: `bm25Term` is
monotone in `tf` for every nonnegative `idf` and document length.  (In the
actual pipeline the added occurrences also grow `len(d)` and
`avg_doc_length`, and through that channel the total score can strictly
decrease — see the counterexample.) -/
theorem bm25_term_monotone_fixed_length_norm (idf tf1 tf2 : ℝ) (dl : ℕ) (avg : ℚ)
    (hidf : 0 ≤ idf) (h1 : 0 ≤ tf1) (h12 : tf1 ≤ tf2) (havg : 0 ≤ avg) :
    bm25Term idf tf1 dl avg ≤ bm25Term idf tf2 dl avg := by
  unfold bm25Term
  have hln : (0:ℝ) ≤ 0.75 * (dl : ℝ) / ((avg : ℚ) : ℝ) := by positivity
  have hK : (0:ℝ) < 1.5 * (1 - 0.75 + 0.75 * ((dl : ℝ)) / ((avg : ℚ) : ℝ)) := by linarith
  have hd1 : (0:ℝ) < tf1 + 1.5 * (1 - 0.75 + 0.75 * ((dl : ℝ)) / ((avg : ℚ) : ℝ)) := by
    linarith
  have hd2 : (0:ℝ) < tf2 + 1.5 * (1 - 0.75 + 0.75 * ((dl : ℝ)) / ((avg : ℚ) : ℝ)) := by
    linarith
  rw [div_le_div_iff₀ hd1 hd2]
  nlinarith [mul_le_mul_of_nonneg_left h12 hidf, mul_nonneg hidf h1]

/-- Witness for `bm25_term_monotone_fixed_length_norm` at a concrete
input. -/
theorem bm25_term_monotone_fixed_length_norm_witness :
    bm25Term 1 0 3 2 ≤ bm25Term 1 1 3 2 :=
  bm25_term_monotone_fixed_length_norm 1 0 1 3 2 zero_le_one (le_refl 0) zero_le_one
    (by norm_num)

/-- **C8.**  Calling `add_documents` a second time with the identical
`(id, content, metadata, embedding)` record leaves the entire retriever
state — documents, metadata, dense index, term frequencies, document
lengths, average document length and the IDF table — literally identical
to the state after a single call: the upsert replaces every binding with an
equal one, `len(self._documents)` does not grow, and every recomputed
document frequency and IDF coincides with the stored value. -/
theorem add_documents_idempotent (s : Retriever) (d : DocRecord) (e : List ℚ) :
    addDocuments (addDocuments s [d] [e]) [d] [e] = addDocuments s [d] [e] := by
  have h1 : addDocuments s [d] [e] = recomputeAvg (addRecord s d e) := rfl
  rw [h1, addDocuments_eq_addFold]
  show recomputeAvg (addRecord (recomputeAvg (addRecord s d e)) d e)
      = recomputeAvg (addRecord s d e)
  rw [addRecord_recomputeAvg, addRecord_addRecord]
  have hne1 : ¬ (addRecord s d e).doc_lengths.isEmpty := by
    rw [addRecord_doc_lengths]
    simp [List.isEmpty_iff, dupd_ne_nil]
  rw [recomputeAvg_set_avg _ _ hne1]

/-- **C9.**  When the `documents` list and the `embeddings` sequence have
different lengths, `add_documents` silently stores and indexes exactly
`min(len(documents), len(embeddings))` records (here stated for fresh,
pairwise-distinct ids): the `zip` drops the surplus of the longer argument
and no error is raised — the operation is total. -/
theorem add_documents_zip_truncation (s : Retriever) (docs : List DocRecord)
    (embs : List (List ℚ)) (hnd : (docs.map DocRecord.id).Nodup)
    (h1 : ∀ d ∈ docs, dlookup d.id s.documents = none)
    (h2 : ∀ d ∈ docs, dlookup d.id s.dense_index = none)
    (h3 : ∀ d ∈ docs, dlookup d.id s.term_freqs = none) :
    (addDocuments s docs embs).documents.length
        = s.documents.length + min docs.length embs.length ∧
    (addDocuments s docs embs).dense_index.length
        = s.dense_index.length + min docs.length embs.length ∧
    (addDocuments s docs embs).term_freqs.length
        = s.term_freqs.length + min docs.length embs.length := by
  have hznd : ((docs.zip embs).map fun de => de.1.id).Nodup := by
    have hsub : ((docs.zip embs).map Prod.fst).Sublist docs := map_fst_zip_sublist docs embs
    have hsub2 : (((docs.zip embs).map Prod.fst).map DocRecord.id).Sublist
        (docs.map DocRecord.id) := hsub.map DocRecord.id
    rw [List.map_map] at hsub2
    exact hnd.sublist hsub2
  have hlen : (docs.zip embs).length = min docs.length embs.length :=
    List.length_zip docs embs
  have hmemdoc : ∀ de ∈ docs.zip embs, de.1 ∈ docs := by
    intro de hde
    obtain ⟨d, e⟩ := de
    exact (List.of_mem_zip hde).1
  rw [addDocuments_eq_addFold]
  refine ⟨?_, ?_, ?_⟩
  · rw [recomputeAvg_documents,
      addFold_length (fun st => st.documents)
        (fun st d e => ⟨d.content, addRecord_documents st d e⟩) _ _ hznd
        (fun de hde => h1 de.1 (hmemdoc de hde)),
      hlen]
  · rw [recomputeAvg_dense_index,
      addFold_length (fun st => st.dense_index)
        (fun st d e => ⟨e, addRecord_dense_index st d e⟩) _ _ hznd
        (fun de hde => h2 de.1 (hmemdoc de hde)),
      hlen]
  · rw [recomputeAvg_term_freqs,
      addFold_length (fun st => st.term_freqs)
        (fun st d e => ⟨termFreqMap (tokenize d.content), addRecord_term_freqs st d e⟩) _ _ hznd
        (fun de hde => h3 de.1 (hmemdoc de hde)),
      hlen]

/-- Witness for `add_documents_zip_truncation` at a concrete input: two
documents, one embedding — exactly one record is stored. -/
theorem add_documents_zip_truncation_witness :
    (addDocuments initRetriever
        [⟨"x", "hello world", []⟩, ⟨"y", "more words", []⟩] [[1]]).documents.length
      = initRetriever.documents.length + min 2 1 := by
  have h := (add_documents_zip_truncation initRetriever
    [⟨"x", "hello world", []⟩, ⟨"y", "more words", []⟩] [[1]]
    (by simp) (fun d _ => rfl) (fun d _ => rfl) (fun d _ => rfl)).1
  simpa using h

/-- **C10.**  Because `top_k = top_k or self.top_k` treats `0` as falsy,
calling `retrieve` with `top_k = 0` behaves exactly like calling it with
`top_k = None`: the constructor default is used, so the call does not
return zero documents but up to the default `top_k` of them. -/
theorem retrieve_topk_zero_falsy (s : Retriever) (q : String) (e : List ℚ) :
    retrieve s q e (some 0) = retrieve s q e none ∧
    ∀ r : RetrievalResult, retrieve s q e (some 0) = some r →
      r.documents.length ≤ s.top_k := by
  refine ⟨rfl, fun r h => ?_⟩
  unfold retrieve at h
  obtain ⟨docs, hdocs, rfl⟩ := Option.map_eq_some'.1 h
  unfold rrfFusion at hdocs
  have hlen := mapOption_length _ _ _ hdocs
  have hle : docs.length ≤ resolveTopK (some 0) s.top_k := by
    rw [hlen]
    unfold rrfRanking
    exact (List.length_take _ _).le.trans (min_le_left _ _)
  simpa [resolveTopK] using hle

/-- Witness for `retrieve_topk_zero_falsy` at a concrete input. -/
theorem retrieve_topk_zero_falsy_witness :
    retrieve initRetriever "q" [1] (some 0) = retrieve initRetriever "q" [1] none ∧
    (RetrievalResult.mk [] "q" "hybrid_rrf" 0 0).documents.length
      ≤ initRetriever.top_k :=
  ⟨(retrieve_topk_zero_falsy initRetriever "q" [1]).1,
   (retrieve_topk_zero_falsy initRetriever "q" [1]).2 ⟨[], "q", "hybrid_rrf", 0, 0⟩
     (by simp [retrieve, denseSearch, sparseSearch, sparseScores, sortDesc, rrfFusion,
       rrfRanking, rrfScores, mapOption, initRetriever, resolveTopK])⟩

end RagRetriever
